import Mathlib

/-
Verification development for the `SleeperAPI` class of the sleeper-mcp
repository (file `src/unnamed/part_001`).

The TypeScript class methods are modelled as pure Lean functions.  Instance
state (`this.players`, `this.playersLoaded`, `this.playersCache`) is passed
explicitly, either as an `ApiState` record (for the cache life-cycle) or as a
directory parameter (for the formatters, which only read `this.players`).
Network fetches are modelled by passing the would-be response as an argument
and reporting whether a fetch was performed as a `Bool`.

JavaScript semantics that the code relies on are modelled explicitly:
- `x || y` on strings treats the empty string as falsy (`jsOr`);
- `x || y` on numbers treats `0` as falsy;
- the default `Array.prototype.sort()` comparator compares elements as
  strings, code unit by code unit (`jsNumLe`), even for arrays of numbers;
- `Object.keys` on an object whose keys are non-negative integer numerals
  enumerates them in ascending numeric order (`objectKeysNat`);
- `Array.prototype.sort` with a numeric comparator is a stable sort, modelled
  by `List.insertionSort` (stable, and agreeing with any sort on lists whose
  comparator ties are only between equal elements);
- `String.prototype.trim` strips leading/trailing whitespace (`jsTrim`);
- template interpolation of `undefined` prints the text `undefined`.

Numeric values that are IEEE doubles in the source (matchup points,
fantasy-point projections) are modelled as integers: none of the verified
claims depends on fractional values, and on integral inputs the modelled
`toFixed` renderings agree with JavaScript.
-/

namespace SleeperAPI

/-! ### JavaScript string primitives -/

/-- Lexicographic comparison of character lists, as performed by the default
`Array.prototype.sort()` comparator (code-unit by code-unit). -/
def charListLe : List Char → List Char → Bool
  | [], _ => true
  | _ :: _, [] => false
  | a :: as, b :: bs => if a = b then charListLe as bs else decide (a < b)

/-- The order in which the default `sort()` places two natural numbers:
string comparison of their decimal numerals. -/
def jsNumLe (a b : Nat) : Prop := charListLe (toString a).data (toString b).data = true

instance : DecidableRel jsNumLe := fun a b =>
  inferInstanceAs (Decidable (charListLe (toString a).data (toString b).data = true))

/-- Totality of the code-unit comparison, backing the `IsTotal` instance the
sorting lemmas need. -/
def charListLe_total : ∀ x y : List Char, charListLe x y = true ∨ charListLe y x = true
  | [], _ => Or.inl rfl
  | _ :: _, [] => Or.inr rfl
  | a :: as, b :: bs => by
    by_cases hab : a = b
    · subst hab
      simpa [charListLe] using charListLe_total as bs
    · rcases lt_or_gt_of_ne hab with h | h
      · exact Or.inl (by simp [charListLe, hab, h])
      · exact Or.inr (by simp [charListLe, Ne.symm hab, h])

/-- Transitivity of the code-unit comparison, backing the `IsTrans` instance
the sorting lemmas need. -/
def charListLe_trans : ∀ x y z : List Char,
    charListLe x y = true → charListLe y z = true → charListLe x z = true
  | [], _, _, _, _ => rfl
  | _ :: _, [], _, hxy, _ => by simp [charListLe] at hxy
  | _ :: _, _ :: _, [], _, hyz => by simp [charListLe] at hyz
  | a :: as, b :: bs, c :: cs, hxy, hyz => by
    by_cases hab : a = b
    · subst hab
      by_cases hbc : a = c
      · subst hbc
        simp only [charListLe, if_pos rfl] at hxy hyz ⊢
        exact charListLe_trans as bs cs hxy hyz
      · simp only [charListLe, if_pos rfl, if_neg hbc] at hyz ⊢
        exact hyz
    · by_cases hbc : b = c
      · subst hbc
        simp only [charListLe, if_neg hab] at hxy ⊢
        exact hxy
      · simp only [charListLe, if_neg hab, if_neg hbc, decide_eq_true_eq] at hxy hyz
        simp only [charListLe, if_neg (ne_of_lt (lt_trans hxy hyz)), decide_eq_true_eq]
        exact lt_trans hxy hyz

instance : IsTotal Nat jsNumLe :=
  ⟨fun a b => charListLe_total (toString a).data (toString b).data⟩

instance : IsTrans Nat jsNumLe :=
  ⟨fun a b c => charListLe_trans (toString a).data (toString b).data (toString c).data⟩

/-- JavaScript `a || b` for an optional string `a`: the empty string is falsy. -/
def jsOr : Option String → String → String
  | some s, b => if s = "" then b else s
  | none, b => b

/-- JavaScript `String.prototype.trim` (whitespace at both ends removed),
modelled structurally over the character list. -/
def jsTrim (s : String) : String :=
  ⟨((s.data.dropWhile Char.isWhitespace).reverse.dropWhile Char.isWhitespace).reverse⟩

/-- JavaScript `String.prototype.padStart(n, " ")`. -/
def padLeft (s : String) (n : Nat) : String :=
  ⟨List.replicate (n - s.length) ' ' ++ s.data⟩

/-- JavaScript `String.prototype.padEnd(n, " ")`. -/
def padRight (s : String) (n : Nat) : String :=
  ⟨s.data ++ List.replicate (n - s.length) ' '⟩

/-- `Number.prototype.toFixed(1)` restricted to integral values. -/
def jsToFixed1 (n : Int) : String := toString n ++ ".0"

/-- `Number.prototype.toFixed(2)` restricted to integral values. -/
def jsToFixed2 (n : Int) : String := toString n ++ ".00"

/-- `Object.keys` of an object populated with the (integer numeral) keys `ks`:
the distinct keys in ascending numeric order. -/
def objectKeysNat (ks : List Nat) : List Nat :=
  List.insertionSort (· ≤ ·) ks.dedup

/-- The default `Array.prototype.sort()` on an array of natural numbers:
a stable sort comparing elements as decimal strings. -/
def jsDefaultSort (ks : List Nat) : List Nat :=
  List.insertionSort jsNumLe ks

/-! ### Data model (the TypeScript interfaces of `part_001`) -/

/-- The `Player` interface: a directory record, all fields optional. -/
structure Player where
  first_name : Option String
  last_name : Option String
  position : Option String
  team : Option String
  status : Option String
  fantasy_positions : Option (List String)
deriving DecidableEq

/-- The `EnrichedPlayer` interface. -/
structure EnrichedPlayer where
  player_id : String
  name : String
  position : String
  team : String
  status : String
  fantasy_positions : List String
deriving DecidableEq

/-- The `{ w?, l? }` forward reference of a bracket match slot. -/
structure TeamFrom where
  w : Option Nat
  l : Option Nat
deriving DecidableEq

/-- The `Match` interface: one bracket match. -/
structure Match where
  m : Nat
  r : Nat
  t1 : Option Nat
  t2 : Option Nat
  t1_from : Option TeamFrom
  t2_from : Option TeamFrom
  w : Option Nat
  l : Option Nat
  p : Option Nat
deriving DecidableEq

/-- The player directory `this.players`, a `Record<string, Player>`. -/
def Players := List (String × Player)

instance : DecidableEq Players := inferInstanceAs (DecidableEq (List (String × Player)))

/-- `this.players[pid]`: the record stored under key `pid`, if any.
(The remote directory has distinct keys; for an association list with
duplicate keys JavaScript would keep the last binding, but `Players` values
built by the modelled code are used only through this lookup.) -/
def lookupPlayer (dir : Players) (pid : String) : Option Player :=
  (dir.find? (fun e => e.1 == pid)).map (·.2)

/-- The `CacheData` interface. -/
structure CacheData where
  timestamp : Nat
  players : Players
deriving DecidableEq

/-- The cache-relevant instance state of `SleeperAPI`:
`this.playersLoaded`, `this.players`, `this.playersCache`.
(The derived Fuse search index is rebuilt from `players` whenever `players`
is assigned and carries no independent state of its own.) -/
structure ApiState where
  playersLoaded : Bool
  players : Players
  playersCache : Option CacheData
deriving DecidableEq

/-- The field initializers of the class. -/
def initialState : ApiState := ⟨false, [], none⟩

/-! ### Player directory cache (`part_001` lines 418-448, 67-72)

Each operation receives the current clock reading `now` (seconds, the
source's `Date.now() / 1000`) and the directory `fetched` that a network
call to `getPlayers` would return, and yields the successor state together
with a `Bool` that is `true` exactly when a directory fetch was performed. -/

def CACHE_DURATION_HOURS : Nat := 24

/-- `isCacheValid`: the cached snapshot is valid while younger than 24 hours.
(Natural subtraction truncates at zero, matching the JavaScript outcome that
a timestamp not in the past is always valid.) -/
def isCacheValid (now : Nat) (cd : CacheData) : Bool :=
  now - cd.timestamp < CACHE_DURATION_HOURS * 3600

/-- `refreshPlayersCache`: fetch the directory, replace `this.players` and the
in-memory snapshot (timestamped with the current time). -/
def refreshPlayersCache (now : Nat) (fetched : Players) (s : ApiState) : ApiState × Bool :=
  ({ s with players := fetched, playersCache := some ⟨now, fetched⟩ }, true)

/-- `loadPlayersCache`: use the snapshot if present and valid, else refresh.
(`getCacheData` simply returns `this.playersCache`.) -/
def loadPlayersCache (now : Nat) (fetched : Players) (s : ApiState) : ApiState × Bool :=
  match s.playersCache with
  | some cd =>
    if isCacheValid now cd then ({ s with players := cd.players }, false)
    else refreshPlayersCache now fetched s
  | none => refreshPlayersCache now fetched s

/-- `ensurePlayersLoaded`: load once, then mark `playersLoaded`; every later
call short-circuits on the flag. -/
def ensurePlayersLoaded (now : Nat) (fetched : Players) (s : ApiState) : ApiState × Bool :=
  if s.playersLoaded then (s, false)
  else
    let r := loadPlayersCache now fetched s
    ({ r.1 with playersLoaded := true }, r.2)

/-! ### Player enrichment (`enrichPlayerIds`, lines 949-974) -/

/-- `enrichPlayerIds`: one `EnrichedPlayer` per input id, looked up in the
directory; `x || ''` and `x || []` defaults are taken verbatim from the
source. -/
def enrichPlayerIds (dir : Players) (playerIds : List String) : List EnrichedPlayer :=
  playerIds.map (fun pid =>
    match lookupPlayer dir pid with
    | some player =>
      { player_id := pid
        name := jsTrim ((jsOr player.first_name "") ++ " " ++ (jsOr player.last_name ""))
        position := jsOr player.position ""
        team := jsOr player.team ""
        status := jsOr player.status ""
        fantasy_positions := player.fantasy_positions.getD [] }
    | none =>
      { player_id := pid
        name := "Unknown Player"
        position := ""
        team := ""
        status := "Unknown"
        fantasy_positions := [] })

/-! ### Bracket rendering (`formatBracket` / `formatMatch` / `getTeamName`,
lines 301-362) -/

/-- `rosterToUser[id] || "Roster <id>"`. -/
def rosterName (ru : Nat → Option String) (id : Nat) : String :=
  jsOr (ru id) ("Roster " ++ toString id)

/-- The same fallback applied to a possibly-undefined id: interpolation of
`undefined` yields the text `Roster undefined`. -/
def rosterNameOpt (ru : Nat → Option String) : Option Nat → String
  | some id => rosterName ru id
  | none => "Roster undefined"

/-- `getTeamName` (lines 351-362).  The function receives only the slot's own
fields and the roster map: a forward reference is rendered from its match id
alone, with no access to the referenced match's outcome. -/
def getTeamName (teamId : Option Nat) (teamFrom : Option TeamFrom)
    (ru : Nat → Option String) : String :=
  match teamId with
  | some id => rosterName ru id
  | none =>
    match teamFrom with
    | some tf =>
      match tf.w with
      | some w => "Winner of Match " ++ toString w
      | none =>
        match tf.l with
        | some l => "Loser of Match " ++ toString l
        | none => "TBD"
    | none => "TBD"

/-- `formatMatch` (lines 331-349).  `match.p ? ... : ""` treats `p = 0` as
falsy. -/
def formatMatch (mt : Match) (ru : Nat → Option String) : String :=
  let t1Name := getTeamName mt.t1 mt.t1_from ru
  let t2Name := getTeamName mt.t2 mt.t2_from ru
  let status :=
    match mt.w with
    | some w => "✅ " ++ rosterName ru w ++ " defeats " ++ rosterNameOpt ru mt.l
    | none => "⏳ Pending"
  let positionText :=
    match mt.p with
    | some p => if p = 0 then "" else " (Position " ++ toString p ++ ")"
    | none => ""
  "  Match " ++ toString mt.m ++ ": " ++ t1Name ++ " vs " ++ t2Name ++ " - " ++
    status ++ positionText

/-- The comparator `(a, b) => a.m - b.m` used on the matches of one round. -/
def matchIdLe (a b : Match) : Prop := a.m ≤ b.m

instance : DecidableRel matchIdLe := fun a b => inferInstanceAs (Decidable (a.m ≤ b.m))

instance : IsTotal Match matchIdLe := ⟨fun a b => Nat.le_total a.m b.m⟩

instance : IsTrans Match matchIdLe := ⟨fun _ _ _ h1 h2 => Nat.le_trans h1 h2⟩

/-- The group `rounds[rn]` built by the grouping loop, in bracket order. -/
def roundGroup (bracket : List Match) (rn : Nat) : List Match :=
  bracket.filter (fun mt => mt.r == rn)

/-- The round numbers in emission order:
`Object.keys(rounds).map(Number).sort()` — ascending numeric key enumeration
followed by the default (string-comparing) sort. -/
def bracketRoundOrder (bracket : List Match) : List Nat :=
  jsDefaultSort (objectKeysNat (bracket.map Match.r))

/-- `rounds[roundNum].sort((a, b) => a.m - b.m)`. -/
def sortedRoundMatches (bracket : List Match) (rn : Nat) : List Match :=
  List.insertionSort matchIdLe (roundGroup bracket rn)

/-- The lines pushed for one round: header, 20-dash rule, one line per match. -/
def roundLines (bracket : List Match) (ru : Nat → Option String) (rn : Nat) : List String :=
  ("\nROUND " ++ toString rn ++ ":") ::
  "--------------------" ::
  (sortedRoundMatches bracket rn).map (fun mt => formatMatch mt ru)

/-- `formatBracket` (lines 301-329), as the list of pushed lines. -/
def formatBracket (bracket : List Match) (ru : Nat → Option String) : List String :=
  if bracket = [] then ["No bracket data available"]
  else (bracketRoundOrder bracket).flatMap (roundLines bracket ru)

/-! ### Final standings (`generateFinalStandings`, lines 364-416) -/

/-- One JavaScript object assignment `standings[k] = v`. -/
def setSlot (s : Nat → Option String) (k : Nat) (v : String) : Nat → Option String :=
  fun j => if j = k then some v else s j

/-- `winnersBracket.reduce((max, match) => match.r > max.r ? match : max,
winnersBracket[0])`: `undefined` on an empty bracket, else a fold over the
whole bracket starting from its first element. -/
def winnersFinal : List Match → Option Match
  | [] => none
  | h :: t => some ((h :: t).foldl (fun mx mt => if mx.r < mt.r then mt else mx) h)

/-- The `standings` object after the winners-final block (lines 373-377):
slots 1 and 2, provided the final exists and has a winner. -/
def standingsAfterWinners (wb : List Match) (ru : Nat → Option String) :
    Nat → Option String :=
  fun k =>
    match winnersFinal wb with
    | some wf =>
      match wf.w with
      | some w => setSlot (setSlot (fun _ => none) 1 (rosterName ru w)) 2 (rosterNameOpt ru wf.l) k
      | none => none
    | none => none

/-- One iteration of the losers-bracket loop (lines 379-396):
`if (match.p && match.w !== undefined && match.l !== undefined)` with `p = 0`
falsy, then the `p === 3 / 5 / 7` chain. -/
def applyLoserMatch (ru : Nat → Option String) (s : Nat → Option String)
    (mt : Match) : Nat → Option String :=
  match mt.p, mt.w, mt.l with
  | some p, some w, some l =>
    if p = 0 then s
    else if p = 3 then setSlot (setSlot s 3 (rosterName ru w)) 4 (rosterName ru l)
    else if p = 5 then setSlot (setSlot s 5 (rosterName ru w)) 6 (rosterName ru l)
    else if p = 7 then setSlot (setSlot s 7 (rosterName ru w)) 8 (rosterName ru l)
    else s
  | _, _, _ => s

/-- The complete `standings` object. -/
def standingsMap (wb lb : List Match) (ru : Nat → Option String) : Nat → Option String :=
  lb.foldl (applyLoserMatch ru) (standingsAfterWinners wb ru)

/-- `Object.keys(standings).map(Number).sort()`.  The only keys ever assigned
are 1..8 (proved below as `standingsMap_support`), `Object.keys` enumerates
integer keys in ascending numeric order, and the default string sort agrees
with the numeric order on the single-digit numerals 1..8, so the enumeration
is the ascending filter of 0..8. -/
def standingsKeys (wb lb : List Match) (ru : Nat → Option String) : List Nat :=
  (List.range 9).filter (fun k => (standingsMap wb lb ru k).isSome)

/-- The rendering of one standings line (lines 403-413). -/
def placeLabel (pos : Nat) (nm : String) : String :=
  if pos = 1 then "🥇 1st Place: " ++ nm
  else if pos = 2 then "🥈 2nd Place: " ++ nm
  else if pos = 3 then "🥉 3rd Place: " ++ nm
  else "   " ++ toString pos ++ "th Place: " ++ nm

/-- `generateFinalStandings` (lines 364-416): `null` unless every match of
both brackets has a recorded winner; `null` again when fewer than two slots
were assigned; otherwise the rendered lines in ascending slot order. -/
def generateFinalStandings (wb lb : List Match) (ru : Nat → Option String) :
    Option (List String) :=
  if (wb ++ lb).all (fun mt => mt.w.isSome) then
    let keys := standingsKeys wb lb ru
    if keys.length < 2 then none
    else some (keys.map (fun pos => placeLabel pos ((standingsMap wb lb ru pos).getD "")))
  else none

/-! ### Player input resolution (`resolvePlayerInput`, lines 499-512)

The Fuse.js fuzzy index is an external library; the single best-match search
that `getPlayerIdByName` performs (`this.playerFuse.search(name, limit 1)`,
lines 478-497) is abstracted as a `search` parameter.  The returned `Bool`
records whether that search path — which begins with `ensurePlayersLoaded`,
hence a possible directory load — was entered at all. -/

/-- A successful fuzzy lookup: the top match's id and display name. -/
structure FuzzyMatch where
  playerId : String
  matchedName : String
deriving DecidableEq

/-- The test `/^\d+$/.test(input)`: non-empty and all characters digits.
(Without the `m` flag, `$` matches only at the very end of the string.) -/
def isAllDigits (s : String) : Bool :=
  !(s == "") && s.data.all (fun c => c.isDigit)

/-- `resolvePlayerInput`: digit-only inputs are returned verbatim with no
lookup; anything else goes through the single best-match fuzzy search, and a
missing match throws `Player not found: <input>`. -/
def resolvePlayerInput (search : String → Option FuzzyMatch) (input : String) :
    Except String String × Bool :=
  if isAllDigits input then (Except.ok input, false)
  else
    match search input with
    | some r => (Except.ok r.playerId, true)
    | none => (Except.error ("Player not found: " ++ input), true)

/-! ### Rank table (`formatPlayerRanksTable`, lines 841-872) -/

/-- The fields of `player.stats` that the function reads. -/
structure RankStats where
  rank_ppr : Option Int
  pos_rank_ppr : Option Int
  pts_ppr : Option Int
deriving DecidableEq

/-- One element of the rankings payload. -/
structure RankRecord where
  player_id : Option String
  stats : Option RankStats
deriving DecidableEq

/-- The filter `player.player_id && player.stats && player.stats.rank_ppr`:
JavaScript truthiness makes an empty id string and a zero rank falsy. -/
def rankFilter (rec : RankRecord) : Bool :=
  match rec.player_id, rec.stats with
  | some pid, some st =>
    (pid != "") &&
      (match st.rank_ppr with
       | some n => n != 0
       | none => false)
  | _, _ => false

/-- The sort key `a.stats.rank_ppr` (every record reaching the comparator has
passed `rankFilter`, so the default is never consulted). -/
def rankKey (rec : RankRecord) : Int :=
  (rec.stats.bind RankStats.rank_ppr).getD 0

/-- The comparator `(a, b) => a.stats.rank_ppr - b.stats.rank_ppr`. -/
def rankLe (a b : RankRecord) : Prop := rankKey a ≤ rankKey b

instance : DecidableRel rankLe := fun a b => inferInstanceAs (Decidable (rankKey a ≤ rankKey b))

instance : IsTotal RankRecord rankLe := ⟨fun a b => le_total (rankKey a) (rankKey b)⟩

instance : IsTrans RankRecord rankLe := ⟨fun _ _ _ h1 h2 => le_trans h1 h2⟩

/-- The local `sortedPlayers` pipeline of `formatPlayerRanksTable`
(lines 847-850): filter, sort ascending by PPR rank, `slice(0, 200)`.
The subsequent `.map` renders exactly one table row per element, so the
table's rows, their order and their count coincide with this list. -/
def sortedPlayers (data : List RankRecord) : List RankRecord :=
  (List.insertionSort rankLe (data.filter rankFilter)).take 200

/-! ### Matchups table (`formatMatchupsTable` / `formatStarters`,
lines 710-801) -/

/-- A league user, as read by the user-map loop. -/
structure LeagueUser where
  user_id : String
  display_name : Option String
  username : Option String
deriving DecidableEq

/-- A roster, as read by the roster-map loop. -/
structure Roster where
  roster_id : Nat
  owner_id : String
deriving DecidableEq

/-- One team entry of the matchups payload.  `points` and `starters_points`
are IEEE doubles in the source, modelled as integers (see the header note). -/
structure MatchupTeam where
  matchup_id : Nat
  roster_id : Nat
  points : Int
  starters : List String
  starters_points : List Int
deriving DecidableEq

/-- `userMap[uid]`: `display_name || username || 'Unknown'`; on duplicate
user ids the last object assignment wins. -/
def userMapLookup (users : List LeagueUser) (uid : String) : Option String :=
  (users.reverse.find? (fun u => u.user_id == uid)).map
    (fun u => jsOr u.display_name (jsOr u.username "Unknown"))

/-- `rosterToUser[rid]`: `userMap[roster.owner_id] || 'Unknown'`; on duplicate
roster ids the last object assignment wins.  Built identically in
`getPlayoffResults` (lines 264-273), `formatMatchupsTable` (lines 715-724) and
`formatDraftPicksTable`. -/
def rosterToUserMap (users : List LeagueUser) (rosters : List Roster) :
    Nat → Option String :=
  fun rid =>
    (rosters.reverse.find? (fun ro => ro.roster_id == rid)).map
      (fun ro => jsOr (userMapLookup users ro.owner_id) "Unknown")

/-- The comparator `(a, b) => b.points - a.points` (descending points). -/
def pointsDescLe (a b : MatchupTeam) : Prop := b.points ≤ a.points

instance : DecidableRel pointsDescLe := fun a b =>
  inferInstanceAs (Decidable (b.points ≤ a.points))

instance : IsTotal MatchupTeam pointsDescLe := ⟨fun a b => le_total b.points a.points⟩

instance : IsTrans MatchupTeam pointsDescLe := ⟨fun _ _ _ h1 h2 => le_trans h2 h1⟩

/-- The group `matchupGroups[mid]`, in payload order. -/
def matchupGroup (ms : List MatchupTeam) (mid : Nat) : List MatchupTeam :=
  ms.filter (fun t => t.matchup_id == mid)

/-- `Object.keys(matchupGroups).sort()`: ascending numeric key enumeration,
then the default string sort. -/
def matchupKeys (ms : List MatchupTeam) : List Nat :=
  jsDefaultSort (objectKeysNat (ms.map MatchupTeam.matchup_id))

/-- One line of `formatStarters` (lines 776-801); `starterPoints[i]?.toFixed(1)
|| '0.0'` and the `'0'` / defense / directory branches. -/
def starterLine (dir : Players) (pid : String) (pts : Option Int) : String :=
  let points :=
    match pts with
    | some n => jsToFixed1 n
    | none => "0.0"
  let playerInfo :=
    if pid = "0" then "Empty Slot"
    else if decide (pid.length ≤ 3) && !(pid == "") &&
        pid.data.all (fun c => decide ('A' ≤ c) && decide (c ≤ 'Z')) then
      pid ++ " DST"
    else
      match lookupPlayer dir pid with
      | some pl =>
        jsTrim ((jsOr pl.first_name "") ++ " " ++ (jsOr pl.last_name "")) ++
          " (" ++ jsOr pl.position "N/A" ++ ", " ++ jsOr pl.team "N/A" ++ ")"
      | none => "Unknown Player"
  "  " ++ padRight playerInfo 35 ++ " " ++ padLeft points 6 ++ " pts"

/-- `formatStarters`: one line per starter index, joined with newlines. -/
def formatStarters (dir : Players) (starters : List String)
    (starterPoints : List Int) : String :=
  String.intercalate "\n"
    ((List.range starters.length).map (fun i =>
      starterLine dir ((starters[i]?).getD "") starterPoints[i]?))

/-- The lines pushed for one matchup id (lines 742-770), applied to the
points-sorted group.  The source guards on `teams.length === 2` before
sorting; sorting preserves length, so matching the sorted list against a
two-element pattern is equivalent, and any other group size pushes nothing. -/
def matchupBlockOfSorted (dir : Players) (ru : Nat → Option String) (mid : Nat) :
    List MatchupTeam → List String
  | [team1, team2] =>
    let winner : Option MatchupTeam :=
      if team2.points < team1.points then some team1
      else if team1.points < team2.points then some team2
      else none
    let ind := fun (t : MatchupTeam) =>
      match winner with
      | some wt => if wt.roster_id = t.roster_id then " 🏆" else ""
      | none => ""
    ["MATCHUP " ++ toString mid,
     String.mk (List.replicate 40 '-'),
     jsOr (ru team1.roster_id) "Unknown" ++ ": " ++ jsToFixed2 team1.points ++ ind team1,
     formatStarters dir team1.starters team1.starters_points,
     "",
     jsOr (ru team2.roster_id) "Unknown" ++ ": " ++ jsToFixed2 team2.points ++ ind team2,
     formatStarters dir team2.starters team2.starters_points,
     ""]
  | _ => []

/-- The lines contributed by one matchup id:
`teams.sort((a, b) => b.points - a.points)` then the two-team block. -/
def matchupBlock (dir : Players) (users : List LeagueUser) (rosters : List Roster)
    (ms : List MatchupTeam) (mid : Nat) : List String :=
  matchupBlockOfSorted dir (rosterToUserMap users rosters) mid
    (List.insertionSort pointsDescLe (matchupGroup ms mid))

/-- The fixed header lines of the matchups table. -/
def matchupHeader (week : Nat) : List String :=
  ["WEEK " ++ toString week ++ " MATCHUPS", String.mk (List.replicate 80 '='), ""]

/-- `formatMatchupsTable` (lines 710-774). -/
def formatMatchupsTable (ms : List MatchupTeam) (users : List LeagueUser)
    (rosters : List Roster) (dir : Players) (week : Nat) : String :=
  if ms = [] then "No matchup data available"
  else
    String.intercalate "\n"
      (matchupHeader week ++ (matchupKeys ms).flatMap (matchupBlock dir users rosters ms))

/-! ### Concrete inputs used by witnesses and counterexamples -/

/-- An always-empty roster map. -/
def ruNone : Nat → Option String := fun _ => none

/-- A fuzzy search that finds nothing. -/
def noMatchSearch : String → Option FuzzyMatch := fun _ => none

/-- A sample directory record. -/
def playerJA : Player := ⟨some "Josh", some "Allen", some "QB", some "BUF", some "Active", some ["QB"]⟩

/-- A directory record with `status` and `fantasy_positions` absent. -/
def playerC4 : Player := ⟨some "Tom", some "Brady", some "QB", some "NE", none, none⟩

/-- A one-entry directory for the enrichment claims. -/
def dirC4 : Players := [("12", playerC4)]

/-- A one-entry directory snapshot. -/
def pListC1 : Players := [("4881", playerJA)]

/-- The instance state right after a directory load at time 0. -/
def loadedC1 : ApiState := ⟨true, pListC1, some ⟨0, pListC1⟩⟩

/-- A bracket match with the given id, round, winner, loser and placement
(no direct roster ids, no forward references). -/
def mkMatch (m r : Nat) (w l p : Option Nat) : Match :=
  ⟨m, r, none, none, none, none, w, l, p⟩

/-- Winners bracket, complete. -/
def wbC2x : List Match := [mkMatch 1 1 (some 1) (some 2) none]

/-- Losers bracket whose placement match has a winner but no recorded loser. -/
def lbC2x : List Match := [mkMatch 2 1 (some 3) none (some 3)]

/-- A complete two-round winners bracket. -/
def wbC2w : List Match := [mkMatch 1 1 (some 1) (some 2) none, mkMatch 2 2 (some 1) (some 4) none]

/-- A complete losers bracket with a third-place match. -/
def lbC2w : List Match := [mkMatch 3 1 (some 5) (some 6) (some 3)]

/-- A bracket with one pending match. -/
def wbC3 : List Match := [mkMatch 1 1 none none none]

/-- A bracket whose round numbers are 2 and 10. -/
def bC5x : List Match := [mkMatch 1 2 none none none, mkMatch 2 10 none none none]

/-- A one-match bracket. -/
def bC5w : List Match := [mkMatch 1 1 none none none]

/-- A matchup team entry with the given roster id, in matchup group 1. -/
def teamC9 (rid : Nat) : MatchupTeam := ⟨1, rid, 0, [], []⟩

/-- Three team entries sharing one matchup id. -/
def msC9 : List MatchupTeam := [teamC9 1, teamC9 2, teamC9 3]

/-- A complete losers-bracket match that decides no placement. -/
def lbC10 : List Match := [mkMatch 1 1 (some 1) (some 2) none]

/-- A rank record with the given id and PPR rank. -/
def rrC8 (pid : String) (rk : Int) : RankRecord := ⟨some pid, some ⟨some rk, some 1, some 100⟩⟩

/-- A small rankings payload, out of order and with one empty record. -/
def dataC8 : List RankRecord := [rrC8 "2" 2, rrC8 "1" 1, ⟨none, none⟩]

/-! ### Supporting lemmas -/

/-- `x || ''` returns a present string verbatim. -/
theorem jsOr_some_empty (v : String) : jsOr (some v) "" = v := by
  by_cases h : v = "" <;> simp [jsOr, h]

/-! ### Claim C1: directory cache life-cycle -/

/-- Claim C1 (corrected).  Once the players are loaded the `playersLoaded`
flag short-circuits every later `ensurePlayersLoaded` call: no fetch happens
and the state — snapshot and timestamp included — is unchanged, no matter how
much time has passed.  The 24-hour validity test is consulted only by a load
that starts with the flag unset: such a load with a snapshot younger than 24
hours uses it without fetching, and with a snapshot aged 24 hours or more it
fetches and replaces the snapshot and timestamp. -/
theorem C1_amended (now : Nat) (fetched : Players) (s : ApiState) (cd : CacheData) :
    (s.playersLoaded = true → ensurePlayersLoaded now fetched s = (s, false)) ∧
    (s.playersLoaded = false → s.playersCache = some cd →
      now - cd.timestamp < 24 * 3600 →
      ensurePlayersLoaded now fetched s =
        ({ s with playersLoaded := true, players := cd.players }, false)) ∧
    (s.playersLoaded = false → s.playersCache = some cd →
      24 * 3600 ≤ now - cd.timestamp →
      ensurePlayersLoaded now fetched s =
        (⟨true, fetched, some ⟨now, fetched⟩⟩, true)) := by
  obtain ⟨pl, ps, pc⟩ := s
  refine ⟨fun h => ?_, fun h hc hv => ?_, fun h hc hv => ?_⟩
  · simp only at h
    simp [ensurePlayersLoaded, h]
  · simp only at h hc
    subst h hc
    simp [ensurePlayersLoaded, loadPlayersCache, isCacheValid, CACHE_DURATION_HOURS, hv]
  · simp only at h hc
    subst h hc
    simp [ensurePlayersLoaded, loadPlayersCache, isCacheValid, CACHE_DURATION_HOURS,
      Nat.not_lt.mpr hv, refreshPlayersCache]

/-- Claim C1 counterexample: after a load at time 0, a query at time
86460 = 24h + 60s performs no refresh: no fetch happens and the snapshot
keeps timestamp 0, contradicting the claimed refresh at or after T + 24h. -/
theorem C1_counterexample :
    (ensurePlayersLoaded 0 pListC1 initialState).1 = loadedC1 ∧
    ensurePlayersLoaded 86460 [] loadedC1 = (loadedC1, false) :=
  ⟨rfl, rfl⟩

/-- Witness for `C1_amended` at concrete inputs. -/
theorem C1_amended_witness :
    ensurePlayersLoaded 200000 [] loadedC1 = (loadedC1, false) ∧
    ensurePlayersLoaded 86460 [] ⟨false, [], some ⟨0, []⟩⟩ =
      (⟨true, [], some ⟨86460, []⟩⟩, true) :=
  ⟨(C1_amended 200000 [] loadedC1 ⟨0, []⟩).1 rfl,
   (C1_amended 86460 [] ⟨false, [], some ⟨0, []⟩⟩ ⟨0, []⟩).2.2 rfl rfl (by decide)⟩

/-! ### Claim C3: incomplete brackets yield null standings -/

/-- Claim C3 (confirmed): if any match of either bracket has no recorded
winner, `generateFinalStandings` returns `null`. -/
theorem C3_incomplete_null (wb lb : List Match) (ru : Nat → Option String)
    (h : ∃ mt ∈ wb ++ lb, mt.w = none) :
    generateFinalStandings wb lb ru = none := by
  obtain ⟨mt, hmem, hw⟩ := h
  have hall : ((wb ++ lb).all (fun mt => mt.w.isSome)) = false :=
    List.all_eq_false.mpr ⟨mt, hmem, by simp [hw]⟩
  simp [generateFinalStandings, hall]

/-- Witness for `C3_incomplete_null`. -/
theorem C3_witness : generateFinalStandings wbC3 [] ruNone = none :=
  C3_incomplete_null wbC3 [] ruNone ⟨mkMatch 1 1 none none none, by decide, rfl⟩

/-! ### Claim C10: complete brackets with fewer than two derived slots -/

/-- Claim C10 (confirmed): even with every match decided,
`generateFinalStandings` returns `null` when fewer than two placement slots
were derived. -/
theorem C10_too_few_slots (wb lb : List Match) (ru : Nat → Option String)
    (hall : (wb ++ lb).all (fun mt => mt.w.isSome) = true)
    (hlt : (standingsKeys wb lb ru).length < 2) :
    generateFinalStandings wb lb ru = none := by
  simp [generateFinalStandings, hall, hlt]

/-- Witness for `C10_too_few_slots`: an empty winners bracket and a complete
losers bracket without placement matches. -/
theorem C10_witness : generateFinalStandings [] lbC10 ruNone = none :=
  C10_too_few_slots [] lbC10 ruNone (by decide) (by decide)

/-! ### Claim C4: enrichment of ids present in the directory -/

/-- Claim C4 counterexample: a directory record with `status` absent is
enriched with `status = ""`, not `status = "Unknown"`. -/
theorem C4_counterexample :
    enrichPlayerIds dirC4 ["12"] = [⟨"12", "Tom Brady", "QB", "NE", "", []⟩] ∧
    ("" : String) ≠ "Unknown" :=
  ⟨rfl, by decide⟩

/-- Claim C4 (corrected).  For an id found in the directory, the enriched
record has `name = trim(first + " " + last)`, `position` and `team` copied
verbatim when present, and `status` defaulted to the empty string — not
`"Unknown"` — and `fantasy_positions` to the empty list when absent.
(`"Unknown"` is used for `status` only in the other branch, for ids missing
from the directory.) -/
theorem C4_amended (dir : Players) (ids : List String) (i : Nat) (pid : String)
    (pl : Player) (hi : ids[i]? = some pid) (hl : lookupPlayer dir pid = some pl) :
    (enrichPlayerIds dir ids)[i]? = some
      { player_id := pid
        name := jsTrim ((jsOr pl.first_name "") ++ " " ++ (jsOr pl.last_name ""))
        position := jsOr pl.position ""
        team := jsOr pl.team ""
        status := jsOr pl.status ""
        fantasy_positions := pl.fantasy_positions.getD [] } ∧
    (∀ v, pl.position = some v → jsOr pl.position "" = v) ∧
    (∀ v, pl.team = some v → jsOr pl.team "" = v) ∧
    (pl.status = none → jsOr pl.status "" = "") ∧
    (pl.fantasy_positions = none → pl.fantasy_positions.getD [] = ([] : List String)) := by
  refine ⟨?_, fun v hv => ?_, fun v hv => ?_, fun hn => ?_, fun hn => ?_⟩
  · simp [enrichPlayerIds, List.getElem?_map, hi, hl]
  · rw [hv, jsOr_some_empty]
  · rw [hv, jsOr_some_empty]
  · rw [hn]; rfl
  · rw [hn]; rfl

/-- Witness for `C4_amended` at a concrete directory and id. -/
theorem C4_amended_witness :
    (enrichPlayerIds dirC4 ["12"])[0]? = some ⟨"12", "Tom Brady", "QB", "NE", "", []⟩ :=
  (C4_amended dirC4 ["12"] 0 "12" playerC4 rfl rfl).1

/-! ### Claim C7: player input resolution -/

/-- Claim C7 (confirmed): an all-digit input is returned verbatim with no
directory load and no fuzzy search; any other input goes through the single
best-match search, and when that yields nothing the thrown message contains
the offending input. -/
theorem C7_resolve (search : String → Option FuzzyMatch) (input : String) :
    (isAllDigits input = true →
      resolvePlayerInput search input = (Except.ok input, false)) ∧
    (isAllDigits input = false →
      (∀ r, search input = some r →
        resolvePlayerInput search input = (Except.ok r.playerId, true)) ∧
      (search input = none →
        resolvePlayerInput search input =
          (Except.error ("Player not found: " ++ input), true))) := by
  refine ⟨fun h => ?_, fun h => ⟨fun r hr => ?_, fun hn => ?_⟩⟩
  · simp [resolvePlayerInput, h]
  · simp [resolvePlayerInput, h, hr]
  · simp [resolvePlayerInput, h, hn]

/-- Witness for `C7_resolve`: the spec's example input `"4881"`. -/
theorem C7_witness :
    resolvePlayerInput noMatchSearch "4881" = (Except.ok "4881", false) :=
  (C7_resolve noMatchSearch "4881").1 (by decide)

/-! ### Claim C5: bracket rendering order -/

/-- On single-digit numerals the default-sort comparator agrees with the
numeric order. -/
theorem jsNumLe_iff_le : ∀ a : Nat, a < 10 → ∀ b : Nat, b < 10 → (jsNumLe a b ↔ a ≤ b) := by
  decide

/-- Claim C5 counterexample: in a bracket with rounds 2 and 10, the default
string sort emits round 10 before round 2, so rounds are not rendered in
ascending numeric order. -/
theorem C5_counterexample :
    bracketRoundOrder bC5x = [10, 2] ∧
    formatBracket bC5x ruNone =
      ["\nROUND 10:", "--------------------", "  Match 2: TBD vs TBD - ⏳ Pending",
       "\nROUND 2:", "--------------------", "  Match 1: TBD vs TBD - ⏳ Pending"] ∧
    ¬ (10 : Nat) ≤ 2 :=
  ⟨by decide, by decide, by decide⟩

/-- Claim C5 (corrected).  `formatBracket` emits the rounds in the order of
the default string sort of their numerals, which coincides with ascending
numeric order only when it does — in particular whenever every round number
is a single digit.  Under that restriction: rounds ascend numerically, the
rounds are exactly the distinct round numbers of the bracket, matches inside
a round ascend by match id and are exactly that round's group, and the
output is the concatenation of the per-round lines (header, dash rule, one
`  Match <id>: <t1> vs <t2> - <status>` line per match, with a position
suffix for placement matches). -/
theorem C5_amended (bracket : List Match) (ru : Nat → Option String)
    (hne : bracket ≠ []) (hsmall : ∀ mt ∈ bracket, mt.r ≤ 9) :
    List.Sorted (· ≤ ·) (bracketRoundOrder bracket) ∧
    (∀ rn, List.Sorted matchIdLe (sortedRoundMatches bracket rn)) ∧
    (∀ rn, (sortedRoundMatches bracket rn).Perm (roundGroup bracket rn)) ∧
    (bracketRoundOrder bracket).Perm (bracket.map Match.r).dedup ∧
    formatBracket bracket ru = (bracketRoundOrder bracket).flatMap (roundLines bracket ru) := by
  have hmem9 : ∀ x ∈ bracketRoundOrder bracket, x ≤ 9 := by
    intro x hx
    rw [bracketRoundOrder, jsDefaultSort, List.mem_insertionSort] at hx
    rw [objectKeysNat, List.mem_insertionSort, List.mem_dedup, List.mem_map] at hx
    obtain ⟨mt, hmt, rfl⟩ := hx
    exact hsmall mt hmt
  refine ⟨?_, fun rn => List.sorted_insertionSort matchIdLe _,
    fun rn => List.perm_insertionSort matchIdLe _, ?_, by simp [formatBracket, hne]⟩
  · have hs := List.sorted_insertionSort jsNumLe (objectKeysNat (bracket.map Match.r))
    exact List.Pairwise.imp_of_mem
      (fun ha hb hab => (jsNumLe_iff_le _ (Nat.lt_succ_of_le (hmem9 _ ha)) _
        (Nat.lt_succ_of_le (hmem9 _ hb))).mp hab) hs
  · exact (List.perm_insertionSort jsNumLe _).trans (List.perm_insertionSort (· ≤ ·) _)

/-- Witness for `C5_amended` at a concrete single-round bracket. -/
theorem C5_amended_witness :
    bC5w ≠ [] ∧ List.Sorted (· ≤ ·) (bracketRoundOrder bC5w) :=
  ⟨by decide, (C5_amended bC5w ruNone (by decide) (by decide)).1⟩

/-! ### Claim C6: team-name resolution precedence -/

/-- A truthy fallback never produces the empty string. -/
theorem jsOr_ne_empty (o : Option String) (b : String) (hb : b ≠ "") : jsOr o b ≠ "" := by
  cases o with
  | none => simpa [jsOr] using hb
  | some v =>
    by_cases hv : v = ""
    · simpa [jsOr, hv] using hb
    · simp only [jsOr, if_neg hv]
      exact hv

/-- The roster maps the code builds never map a roster id to the empty
string, so the truthiness fallback in `rosterName` fires exactly on unmapped
ids. -/
theorem rosterToUserMap_ne_empty (users : List LeagueUser) (rosters : List Roster)
    (rid : Nat) (s : String) (h : rosterToUserMap users rosters rid = some s) :
    s ≠ "" := by
  unfold rosterToUserMap at h
  obtain ⟨ro, _, hmap⟩ := Option.map_eq_some'.mp h
  rw [← hmap]
  exact jsOr_ne_empty _ _ (by decide)

/-- Claim C6 (confirmed): a present direct roster id resolves through the
roster map (with the `Roster <id>` fallback on unmapped ids); otherwise a
forward reference renders `Winner of Match <id>` / `Loser of Match <id>`
purely from the referenced match id — `getTeamName` receives no match
outcomes at all, so no outcome is ever resolved — and with neither field the
slot renders `TBD`. -/
theorem C6_team_name (ru : Nat → Option String) :
    (∀ id tf s, ru id = some s → s ≠ "" → getTeamName (some id) tf ru = s) ∧
    (∀ id tf, ru id = none → getTeamName (some id) tf ru = "Roster " ++ toString id) ∧
    (∀ w l, getTeamName none (some ⟨some w, l⟩) ru = "Winner of Match " ++ toString w) ∧
    (∀ l, getTeamName none (some ⟨none, some l⟩) ru = "Loser of Match " ++ toString l) ∧
    getTeamName none (some ⟨none, none⟩) ru = "TBD" ∧
    getTeamName none none ru = "TBD" := by
  refine ⟨fun id tf s hs hne => ?_, fun id tf hn => ?_,
    fun w l => rfl, fun l => rfl, rfl, rfl⟩
  · simp [getTeamName, rosterName, hs, jsOr, hne]
  · simp [getTeamName, rosterName, hn, jsOr]

/-- Witness for `C6_team_name`: an unmapped direct id and a forward
reference. -/
theorem C6_witness :
    getTeamName (some 7) none ruNone = "Roster 7" ∧
    getTeamName none (some ⟨some 4, none⟩) ruNone = "Winner of Match 4" :=
  ⟨(C6_team_name ruNone).2.1 7 none rfl, (C6_team_name ruNone).2.2.1 4 none⟩

/-! ### Claim C8: rank-table filtering, ordering, truncation -/

/-- A record passing the rank filter has both an id and a PPR rank. -/
theorem rankFilter_fields (rec : RankRecord) (h : rankFilter rec = true) :
    rec.player_id.isSome ∧ (rec.stats.bind RankStats.rank_ppr).isSome := by
  obtain ⟨pid?, st?⟩ := rec
  cases pid? with
  | none => simp [rankFilter] at h
  | some pid =>
    cases st? with
    | none => simp [rankFilter] at h
    | some st =>
      obtain ⟨rk?, pr?, pts?⟩ := st
      cases rk? with
      | none => simp [rankFilter] at h
      | some rk => exact ⟨rfl, rfl⟩

/-- Claim C8 (confirmed): the rendered rank rows are at most 200, each comes
from a record that has both a `player_id` and a `stats.rank_ppr`, and they
are ordered ascending by `rank_ppr`. -/
theorem C8_rank_table (data : List RankRecord) :
    (sortedPlayers data).length ≤ 200 ∧
    (∀ rec ∈ sortedPlayers data,
      rec.player_id.isSome ∧ (rec.stats.bind RankStats.rank_ppr).isSome) ∧
    List.Sorted rankLe (sortedPlayers data) := by
  refine ⟨?_, fun rec hrec => ?_, ?_⟩
  · rw [sortedPlayers, List.length_take]
    exact min_le_left _ _
  · have h1 : rec ∈ List.insertionSort rankLe (data.filter rankFilter) :=
      List.take_subset _ _ hrec
    rw [List.mem_insertionSort, List.mem_filter] at h1
    exact rankFilter_fields rec h1.2
  · exact List.Pairwise.sublist (List.take_sublist _ _) (List.sorted_insertionSort rankLe _)

/-- Witness for `C8_rank_table` on a concrete out-of-order payload. -/
theorem C8_witness :
    sortedPlayers dataC8 = [rrC8 "1" 1, rrC8 "2" 2] ∧
    (sortedPlayers dataC8).length ≤ 200 ∧
    List.Sorted rankLe (sortedPlayers dataC8) :=
  ⟨by decide, (C8_rank_table dataC8).1, (C8_rank_table dataC8).2.2⟩

/-! ### Claim C9: only two-team matchup groups are rendered -/

/-- Claim C9 (confirmed): a matchup id whose group does not hold exactly two
team entries contributes no lines at all to the table — no row, no error, no
placeholder; a group of exactly two contributes a block opening with its
`MATCHUP <id>` line; and the table is the header plus the per-id blocks. -/
theorem C9_matchups_pairs_only (ms : List MatchupTeam) (users : List LeagueUser)
    (rosters : List Roster) (dir : Players) (week : Nat) :
    (∀ mid, (matchupGroup ms mid).length ≠ 2 →
      matchupBlock dir users rosters ms mid = []) ∧
    (∀ mid, (matchupGroup ms mid).length = 2 →
      ∃ rest, matchupBlock dir users rosters ms mid =
        ("MATCHUP " ++ toString mid) :: rest) ∧
    (ms ≠ [] → formatMatchupsTable ms users rosters dir week =
      String.intercalate "\n"
        (matchupHeader week ++ (matchupKeys ms).flatMap (matchupBlock dir users rosters ms))) := by
  refine ⟨fun mid h => ?_, fun mid h => ?_, fun h => by simp [formatMatchupsTable, h]⟩
  · unfold matchupBlock
    have hlen := (List.perm_insertionSort pointsDescLe (matchupGroup ms mid)).length_eq
    revert hlen
    generalize List.insertionSort pointsDescLe (matchupGroup ms mid) = l
    intro hlen
    rcases l with _ | ⟨a, _ | ⟨b, _ | ⟨c, tl⟩⟩⟩
    · rfl
    · rfl
    · exact absurd (by simpa using hlen.symm) h
    · rfl
  · have hlen := (List.perm_insertionSort pointsDescLe (matchupGroup ms mid)).length_eq
    rw [h] at hlen
    obtain ⟨a, b, hab⟩ := List.length_eq_two.mp hlen
    unfold matchupBlock
    rw [hab]
    exact ⟨_, rfl⟩

/-- Witness for `C9_matchups_pairs_only`: a three-entry group is omitted. -/
theorem C9_witness : matchupBlock ([] : Players) [] [] msC9 1 = [] :=
  (C9_matchups_pairs_only msC9 [] [] ([] : Players) 1).1 1 (by decide)

/-! ### Claim C2: final standings placement -/

/-- Pointwise view of one object assignment. -/
theorem setSlot_apply (s : Nat → Option String) (k : Nat) (v : String) (j : Nat) :
    setSlot s k v j = if j = k then some v else s j := rfl

/-- The winners-final fold returns its accumulator or a list element, of
maximal round among both. -/
theorem foldl_winners_spec (l : List Match) (acc : Match) :
    (l.foldl (fun mx mt => if mx.r < mt.r then mt else mx) acc = acc ∨
      l.foldl (fun mx mt => if mx.r < mt.r then mt else mx) acc ∈ l) ∧
    acc.r ≤ (l.foldl (fun mx mt => if mx.r < mt.r then mt else mx) acc).r ∧
    ∀ mt ∈ l, mt.r ≤ (l.foldl (fun mx mt => if mx.r < mt.r then mt else mx) acc).r := by
  induction l generalizing acc with
  | nil => exact ⟨Or.inl rfl, le_refl _, by simp⟩
  | cons hd tl ih =>
    have key : (hd :: tl).foldl (fun mx mt => if mx.r < mt.r then mt else mx) acc =
        tl.foldl (fun mx mt => if mx.r < mt.r then mt else mx)
          (if acc.r < hd.r then hd else acc) := by
      simp [List.foldl_cons]
    by_cases hr : acc.r < hd.r
    · rw [if_pos hr] at key
      obtain ⟨h1, h2, h3⟩ := ih hd
      rw [key]
      refine ⟨?_, le_trans (le_of_lt hr) h2, ?_⟩
      · rcases h1 with he | hm
        · exact Or.inr (by rw [he]; exact List.mem_cons_self hd tl)
        · exact Or.inr (List.mem_cons_of_mem hd hm)
      · intro mt hmt
        rcases List.mem_cons.mp hmt with he | hm
        · rw [he]; exact h2
        · exact h3 mt hm
    · rw [if_neg hr] at key
      obtain ⟨h1, h2, h3⟩ := ih acc
      rw [key]
      refine ⟨?_, h2, ?_⟩
      · rcases h1 with he | hm
        · exact Or.inl he
        · exact Or.inr (List.mem_cons_of_mem hd hm)
      · intro mt hmt
        rcases List.mem_cons.mp hmt with he | hm
        · rw [he]; exact le_trans (Nat.le_of_not_lt hr) h2
        · exact h3 mt hm

/-- When the winners bracket has a strictly maximal-round match, the
`reduce` of `generateFinalStandings` selects exactly that match. -/
theorem winnersFinal_eq (wb : List Match) (wf : Match) (hmem : wf ∈ wb)
    (hmax : ∀ mt ∈ wb, mt ≠ wf → mt.r < wf.r) : winnersFinal wb = some wf := by
  cases wb with
  | nil => cases hmem
  | cons h t =>
    obtain ⟨h1, _, h3⟩ := foldl_winners_spec (h :: t) h
    have hmx_mem : (h :: t).foldl (fun mx mt => if mx.r < mt.r then mt else mx) h ∈ h :: t := by
      rcases h1 with he | hm
      · rw [he]; exact List.mem_cons_self h t
      · exact hm
    have hle : wf.r ≤ ((h :: t).foldl (fun mx mt => if mx.r < mt.r then mt else mx) h).r :=
      h3 wf hmem
    by_cases heq : (h :: t).foldl (fun mx mt => if mx.r < mt.r then mt else mx) h = wf
    · have hdef : winnersFinal (h :: t) =
          some ((h :: t).foldl (fun mx mt => if mx.r < mt.r then mt else mx) h) := rfl
      rw [hdef, heq]
    · exact absurd (hmax _ hmx_mem heq) (Nat.not_lt.mpr hle)

/-- The losers-bracket loop body never writes slots below 3. -/
theorem applyLoserMatch_low (ru : Nat → Option String) (s : Nat → Option String)
    (mt : Match) (k : Nat) (hk : k < 3) : applyLoserMatch ru s mt k = s k := by
  obtain ⟨m, r, t1, t2, tf1, tf2, w?, l?, p?⟩ := mt
  cases p? <;> cases w? <;> cases l? <;> try rfl
  simp only [applyLoserMatch]
  split_ifs <;> simp only [setSlot_apply] <;> split_ifs <;> first | rfl | omega

/-- A loop iteration on a match that does not carry placement `p0` leaves
slots `p0` and `p0 + 1` unchanged. -/
theorem applyLoserMatch_skip (ru : Nat → Option String) (s : Nat → Option String)
    (mt : Match) (p0 k : Nat) (hp0 : p0 = 3 ∨ p0 = 5 ∨ p0 = 7)
    (hk : k = p0 ∨ k = p0 + 1) (hp : mt.p ≠ some p0) :
    applyLoserMatch ru s mt k = s k := by
  obtain ⟨m, r, t1, t2, tf1, tf2, w?, l?, p?⟩ := mt
  cases p? <;> cases w? <;> cases l? <;> try rfl
  rename_i p w l
  have hp' : p ≠ p0 := by simpa using hp
  simp only [applyLoserMatch]
  split_ifs <;> simp only [setSlot_apply] <;> split_ifs <;> first | rfl | omega

/-- A loop iteration on a complete match carrying placement `p0` writes its
winner at `p0` and its loser at `p0 + 1`. -/
theorem applyLoserMatch_write (ru : Nat → Option String) (s : Nat → Option String)
    (mt : Match) (p0 w l : Nat) (hp0 : p0 = 3 ∨ p0 = 5 ∨ p0 = 7)
    (hp : mt.p = some p0) (hw : mt.w = some w) (hl : mt.l = some l) :
    applyLoserMatch ru s mt p0 = some (rosterName ru w) ∧
    applyLoserMatch ru s mt (p0 + 1) = some (rosterName ru l) := by
  obtain ⟨m, r, t1, t2, tf1, tf2, w?, l?, p?⟩ := mt
  simp only at hp hw hl
  subst hp hw hl
  rcases hp0 with rfl | rfl | rfl <;> simp [applyLoserMatch, setSlot]

/-- Slots 1 and 2 survive the whole losers-bracket loop. -/
theorem foldl_apply_low (ru : Nat → Option String) (k : Nat) (hk : k < 3) :
    ∀ (lb : List Match) (s : Nat → Option String),
      lb.foldl (applyLoserMatch ru) s k = s k := by
  intro lb
  induction lb with
  | nil => intro s; rfl
  | cons hd tl ih =>
    intro s
    rw [List.foldl_cons, ih (applyLoserMatch ru s hd), applyLoserMatch_low ru s hd k hk]

/-- Slots `p0` / `p0 + 1` survive a loop over matches without placement
`p0`. -/
theorem foldl_apply_skip (ru : Nat → Option String) (p0 k : Nat)
    (hp0 : p0 = 3 ∨ p0 = 5 ∨ p0 = 7) (hk : k = p0 ∨ k = p0 + 1) :
    ∀ (lb : List Match) (s : Nat → Option String), (∀ mt ∈ lb, mt.p ≠ some p0) →
      lb.foldl (applyLoserMatch ru) s k = s k := by
  intro lb
  induction lb with
  | nil => intro s _; rfl
  | cons hd tl ih =>
    intro s hnone
    rw [List.foldl_cons, ih (applyLoserMatch ru s hd)
        (fun mt hmt => hnone mt (List.mem_cons_of_mem _ hmt)),
      applyLoserMatch_skip ru s hd p0 k hp0 hk (hnone hd (List.mem_cons_self _ _))]

/-- If exactly one losers-bracket match carries placement `p0` and it is
complete, the loop leaves its winner at `p0` and its loser at `p0 + 1`. -/
theorem foldl_apply_last (ru : Nat → Option String) (p0 w l : Nat) (mtx : Match)
    (hp0 : p0 = 3 ∨ p0 = 5 ∨ p0 = 7) (hp : mtx.p = some p0)
    (hw : mtx.w = some w) (hl : mtx.l = some l) :
    ∀ (lb : List Match) (s : Nat → Option String), mtx ∈ lb →
      (∀ mt ∈ lb, mt.p = some p0 → mt = mtx) →
      lb.foldl (applyLoserMatch ru) s p0 = some (rosterName ru w) ∧
      lb.foldl (applyLoserMatch ru) s (p0 + 1) = some (rosterName ru l) := by
  intro lb
  induction lb with
  | nil => intro s hmem _; cases hmem
  | cons hd tl ih =>
    intro s hmem huniq
    by_cases htl : mtx ∈ tl
    · exact ih (applyLoserMatch ru s hd) htl
        (fun mt hmt hpm => huniq mt (List.mem_cons_of_mem _ hmt) hpm)
    · have hhd : mtx = hd := by
        rcases List.mem_cons.mp hmem with he | hm
        · exact he
        · exact absurd hm htl
      have hnone : ∀ mt ∈ tl, mt.p ≠ some p0 := by
        intro mt hmt hpm
        exact htl (by rwa [huniq mt (List.mem_cons_of_mem _ hmt) hpm] at hmt)
      rw [List.foldl_cons]
      constructor
      · rw [foldl_apply_skip ru p0 p0 hp0 (Or.inl rfl) tl _ hnone, ← hhd]
        exact (applyLoserMatch_write ru s mtx p0 w l hp0 hp hw hl).1
      · rw [foldl_apply_skip ru p0 (p0 + 1) hp0 (Or.inr rfl) tl _ hnone, ← hhd]
        exact (applyLoserMatch_write ru s mtx p0 w l hp0 hp hw hl).2

/-- Any slot a loop iteration assigns is one of 3..8, sourced from the
placement of the match at hand. -/
theorem applyLoserMatch_support (ru : Nat → Option String) (s : Nat → Option String)
    (mt : Match) (k : Nat) (h : (applyLoserMatch ru s mt k).isSome) :
    (s k).isSome ∨ mt.p = some 3 ∧ (k = 3 ∨ k = 4) ∨
      mt.p = some 5 ∧ (k = 5 ∨ k = 6) ∨ mt.p = some 7 ∧ (k = 7 ∨ k = 8) := by
  obtain ⟨m, r, t1, t2, tf1, tf2, w?, l?, p?⟩ := mt
  cases p? <;> cases w? <;> cases l? <;> try exact Or.inl h
  rename_i p w l
  simp only [applyLoserMatch] at h
  split_ifs at h with h0 h3 h5 h7
  · exact Or.inl h
  · subst h3
    simp only [setSlot_apply] at h
    split_ifs at h with hk4 hk3
    · exact Or.inr (Or.inl ⟨rfl, Or.inr hk4⟩)
    · exact Or.inr (Or.inl ⟨rfl, Or.inl hk3⟩)
    · exact Or.inl h
  · subst h5
    simp only [setSlot_apply] at h
    split_ifs at h with hk6 hk5
    · exact Or.inr (Or.inr (Or.inl ⟨rfl, Or.inr hk6⟩))
    · exact Or.inr (Or.inr (Or.inl ⟨rfl, Or.inl hk5⟩))
    · exact Or.inl h
  · subst h7
    simp only [setSlot_apply] at h
    split_ifs at h with hk8 hk7
    · exact Or.inr (Or.inr (Or.inr ⟨rfl, Or.inr hk8⟩))
    · exact Or.inr (Or.inr (Or.inr ⟨rfl, Or.inl hk7⟩))
    · exact Or.inl h
  · exact Or.inl h

/-- Any slot the whole loop assigns is sourced from some placement match of
the losers bracket. -/
theorem foldl_apply_support (ru : Nat → Option String) (k : Nat) :
    ∀ (lb : List Match) (s : Nat → Option String),
      (lb.foldl (applyLoserMatch ru) s k).isSome →
      (s k).isSome ∨ ∃ mt ∈ lb, mt.p = some 3 ∧ (k = 3 ∨ k = 4) ∨
        mt.p = some 5 ∧ (k = 5 ∨ k = 6) ∨ mt.p = some 7 ∧ (k = 7 ∨ k = 8) := by
  intro lb
  induction lb with
  | nil => exact fun s h => Or.inl h
  | cons hd tl ih =>
    intro s h
    rw [List.foldl_cons] at h
    rcases ih (applyLoserMatch ru s hd) h with h1 | ⟨mt, hmt, hcase⟩
    · rcases applyLoserMatch_support ru s hd k h1 with h2 | hc
      · exact Or.inl h2
      · exact Or.inr ⟨hd, List.mem_cons_self _ _, hc⟩
    · exact Or.inr ⟨mt, List.mem_cons_of_mem _ hmt, hcase⟩

/-- The winners-final block assigns only slots 1 and 2. -/
theorem standingsAfterWinners_support (wb : List Match) (ru : Nat → Option String)
    (k : Nat) (h : (standingsAfterWinners wb ru k).isSome) : k = 1 ∨ k = 2 := by
  unfold standingsAfterWinners at h
  split at h
  · split at h
    · by_cases h2 : k = 2
      · exact Or.inr h2
      by_cases h1 : k = 1
      · exact Or.inl h1
      · simp only [setSlot_apply, if_neg h2, if_neg h1] at h
        exact absurd h (by simp)
    · simp at h
  · simp at h

/-- Every slot the standings object ever holds lies in 1..8; this justifies
enumerating its keys as the ascending filter of 0..8 in `standingsKeys`. -/
theorem standingsMap_support (wb lb : List Match) (ru : Nat → Option String) (k : Nat)
    (h : (standingsMap wb lb ru k).isSome) : 1 ≤ k ∧ k ≤ 8 := by
  rw [standingsMap] at h
  rcases foldl_apply_support ru k lb _ h with h1 | ⟨mt, _, hc⟩
  · rcases standingsAfterWinners_support wb ru k h1 with rfl | rfl <;> omega
  · rcases hc with ⟨_, h2⟩ | ⟨_, h2⟩ | ⟨_, h2⟩ <;> omega

/-- Claim C2 counterexample: both brackets have every winner recorded and the
losers bracket has a `p = 3` match, yet — because that match has no recorded
loser — no 3rd/4th place is assigned and the output holds places 1 and 2
only, contradicting the claimed placement of that match's winner. -/
theorem C2_counterexample :
    ((wbC2x ++ lbC2x).all (fun mt => mt.w.isSome)) = true ∧
    mkMatch 2 1 (some 3) none (some 3) ∈ lbC2x ∧
    (mkMatch 2 1 (some 3) none (some 3)).p = some 3 ∧
    standingsMap wbC2x lbC2x ruNone 3 = none ∧
    generateFinalStandings wbC2x lbC2x ruNone =
      some ["🥇 1st Place: Roster 1", "🥈 2nd Place: Roster 2"] := by
  refine ⟨by decide, by decide, by decide, by decide, by decide⟩

/-- Claim C2 (corrected).  Assume every match of both brackets has a recorded
winner AND a recorded loser, the winners bracket has a unique match of
maximal round, and no placement value 3, 5 or 7 is carried by two different
losers-bracket matches.  Then the standings assign place 1 to the winner and
place 2 to the loser of that maximal-round match; each losers-bracket match
with `p ∈ {3, 5, 7}` puts its winner at place `p` and its loser at place
`p + 1`; no slot outside this scheme is ever assigned; and the standings are
rendered (not `null`). -/
theorem C2_amended (wb lb : List Match) (ru : Nat → Option String) (wf : Match)
    (w1 l1 : Nat) (hwfmem : wf ∈ wb)
    (hmax : ∀ mt ∈ wb, mt ≠ wf → mt.r < wf.r)
    (hw1 : wf.w = some w1) (hl1 : wf.l = some l1)
    (hcomp : ∀ mt ∈ wb ++ lb, mt.w.isSome ∧ mt.l.isSome)
    (huniq : ∀ p0 ∈ ([3, 5, 7] : List Nat), ∀ mt1 ∈ lb, ∀ mt2 ∈ lb,
      mt1.p = some p0 → mt2.p = some p0 → mt1 = mt2) :
    standingsMap wb lb ru 1 = some (rosterName ru w1) ∧
    standingsMap wb lb ru 2 = some (rosterName ru l1) ∧
    (∀ mt ∈ lb, ∀ p0 w l : Nat, mt.p = some p0 → p0 = 3 ∨ p0 = 5 ∨ p0 = 7 →
      mt.w = some w → mt.l = some l →
      standingsMap wb lb ru p0 = some (rosterName ru w) ∧
      standingsMap wb lb ru (p0 + 1) = some (rosterName ru l)) ∧
    (∀ k, (standingsMap wb lb ru k).isSome →
      k = 1 ∨ k = 2 ∨ ∃ mt ∈ lb, mt.p = some 3 ∧ (k = 3 ∨ k = 4) ∨
        mt.p = some 5 ∧ (k = 5 ∨ k = 6) ∨ mt.p = some 7 ∧ (k = 7 ∨ k = 8)) ∧
    (generateFinalStandings wb lb ru).isSome := by
  have hwfeq := winnersFinal_eq wb wf hwfmem hmax
  have hAW1 : standingsAfterWinners wb ru 1 = some (rosterName ru w1) := by
    unfold standingsAfterWinners
    rw [hwfeq]
    simp only [hw1]
    rfl
  have hAW2 : standingsAfterWinners wb ru 2 = some (rosterName ru l1) := by
    unfold standingsAfterWinners
    rw [hwfeq]
    simp only [hw1, hl1]
    rfl
  have hslot1 : standingsMap wb lb ru 1 = some (rosterName ru w1) := by
    rw [standingsMap, foldl_apply_low ru 1 (by omega) lb _]
    exact hAW1
  have hslot2 : standingsMap wb lb ru 2 = some (rosterName ru l1) := by
    rw [standingsMap, foldl_apply_low ru 2 (by omega) lb _]
    exact hAW2
  have hsupp : ∀ k, (standingsMap wb lb ru k).isSome →
      k = 1 ∨ k = 2 ∨ ∃ mt ∈ lb, mt.p = some 3 ∧ (k = 3 ∨ k = 4) ∨
        mt.p = some 5 ∧ (k = 5 ∨ k = 6) ∨ mt.p = some 7 ∧ (k = 7 ∨ k = 8) := by
    intro k hk
    rw [standingsMap] at hk
    rcases foldl_apply_support ru k lb _ hk with h1 | hex
    · rcases standingsAfterWinners_support wb ru k h1 with rfl | rfl
      · exact Or.inl rfl
      · exact Or.inr (Or.inl rfl)
    · exact Or.inr (Or.inr hex)
  have hall : ((wb ++ lb).all (fun mt => mt.w.isSome)) = true :=
    List.all_eq_true.mpr (fun mt hm => (hcomp mt hm).1)
  have hkeys1 : (1 : Nat) ∈ standingsKeys wb lb ru := by
    rw [standingsKeys, List.mem_filter]
    refine ⟨by simp, ?_⟩
    rw [hslot1]
    rfl
  have hkeys2 : (2 : Nat) ∈ standingsKeys wb lb ru := by
    rw [standingsKeys, List.mem_filter]
    refine ⟨by simp, ?_⟩
    rw [hslot2]
    rfl
  have hlen : ¬ (standingsKeys wb lb ru).length < 2 := by
    rcases hsk : standingsKeys wb lb ru with _ | ⟨a, _ | ⟨b, rest⟩⟩
    · rw [hsk] at hkeys1
      cases hkeys1
    · rw [hsk] at hkeys1 hkeys2
      simp at hkeys1 hkeys2
      omega
    · simp
  refine ⟨hslot1, hslot2, fun mt hmt p0 w l hp hp0 hw hl => ?_, hsupp, ?_⟩
  · have hp0m : p0 ∈ ([3, 5, 7] : List Nat) := by
      rcases hp0 with rfl | rfl | rfl <;> simp
    exact foldl_apply_last ru p0 w l mt hp0 hp hw hl lb _ hmt
      (fun mt2 hmt2 hp2 => huniq p0 hp0m mt2 hmt2 mt hmt hp2 hp)
  · simp [generateFinalStandings, hall, hlen]

/-- Witness for `C2_amended` at a concrete complete pair of brackets. -/
theorem C2_amended_witness :
    standingsMap wbC2w lbC2w ruNone 1 = some "Roster 1" ∧
    standingsMap wbC2w lbC2w ruNone 2 = some "Roster 4" ∧
    standingsMap wbC2w lbC2w ruNone 3 = some "Roster 5" ∧
    standingsMap wbC2w lbC2w ruNone 4 = some "Roster 6" ∧
    (generateFinalStandings wbC2w lbC2w ruNone).isSome := by
  have h := C2_amended wbC2w lbC2w ruNone (mkMatch 2 2 (some 1) (some 4) none) 1 4
    (by decide) (by decide) rfl rfl (by decide) (by decide)
  have hp := h.2.2.1 (mkMatch 3 1 (some 5) (some 6) (some 3)) (by decide) 3 5 6 rfl
    (Or.inl rfl) rfl rfl
  exact ⟨h.1, h.2.1, hp.1, hp.2, h.2.2.2.2⟩

end SleeperAPI
